import Mathlib

/-!
Shallow embedding of the validation engine of the invoice-scanner repository:
the character-level KPI calculator (`character_kpi_calculator.py`), the business
validation adapter (`business_validation_adapter.py`), the business rule engine
(`validation/validator.py`, `validation/rules.py`, `validation/schemas.py`) and
the orchestrator (`enhanced_validation_processor.py`).

Modelling conventions:
- Python strings are `List Char`; `str.strip()` is `trim` (ASCII whitespace).
- Python `Decimal` arithmetic is `ℚ` (exact decimal arithmetic; the 28-digit
  context never matters at invoice magnitudes).  `Decimal(str)` parsing is
  `parseDecimal`, which models sign, digits and one decimal dot, with Python's
  removal of surrounding whitespace and underscores; exponent forms and the
  special values Infinity/NaN are not modelled.
- JSON scalar values are `Value` (null, string, number); a JSON record (one
  invoice line) is an association list `Item`.
- Raised exceptions are `Option`/`Except` failures.
- Wall-clock reads (`datetime.now()` inside `log`) are modelled by an explicit
  clock `ℕ → List Char` together with a read counter threaded through the
  functions that log.
-/

namespace Scan

/-- Whitespace for the model of Python `str.strip` (ASCII subset). -/
def isWS (c : Char) : Bool :=
  c = ' ' || c = '\t' || c = '\n' || c = '\r' || c = '\x0b' || c = '\x0c'

/-- Model of Python `str.strip()`: drop whitespace from both ends. -/
def trim (s : List Char) : List Char :=
  ((s.dropWhile isWS).reverse.dropWhile isWS).reverse

/-- Helper for `collapseWS`: the flag records whether the previous character
was whitespace (so the current run has already emitted its single space). -/
def collapseWSAux : Bool → List Char → List Char
  | _, [] => []
  | prevWS, c :: rest =>
    if isWS c then
      if prevWS then collapseWSAux true rest
      else ' ' :: collapseWSAux true rest
    else c :: collapseWSAux false rest

/-- Model of `re.sub(r"\s+", " ", v)` used by the `LineItem` description
validator: collapse each whitespace run to a single space. -/
def collapseWS (s : List Char) : List Char := collapseWSAux false s

/-- A scalar JSON value carried by an invoice record. -/
inductive Value where
  | null
  | str (s : List Char)
  | num (q : ℚ)
deriving DecidableEq

/-- One record (invoice line) as parsed from JSON: a field-name/value map.
Python dict keys are unique; lookup takes the first binding. -/
def Item := List (String × Value)

instance : DecidableEq Item := by unfold Item; infer_instance

/-- Python `dict.get(field)`: `none` when the field is absent. -/
def lookupField (item : Item) (f : String) : Option Value :=
  (item.find? (fun p => p.1 = f)).map Prod.snd

/-- Python `dict.get(field, default)`. -/
def lookupFieldD (item : Item) (f : String) (d : Value) : Value :=
  (lookupField item f).getD d

/-- Model of Python `str(value)`.  `str(None)` is the text `None`; the exact
rendering of numeric values is immaterial to every claim (only emptiness and
determinism are ever used), so numbers are rendered by `ℚ`'s `toString`. -/
def strOfValue : Value → List Char
  | .null => ['N', 'o', 'n', 'e']
  | .str s => s
  | .num q => (toString q).data

/-- Digit run to a natural number. -/
def digitsToNat (ds : List Char) : ℕ :=
  ds.foldl (fun a c => a * 10 + (c.toNat - '0'.toNat)) 0

/-- Unsigned decimal numeral: digits with at most one dot, at least one digit. -/
def parseUnsignedDec (s : List Char) : Option ℚ :=
  let intPart := s.takeWhile (fun c => c != '.')
  let rest := s.dropWhile (fun c => c != '.')
  match rest with
  | [] =>
    if intPart ≠ [] ∧ intPart.all Char.isDigit then some (digitsToNat intPart) else none
  | _ :: frac =>
    if frac.contains '.' then none
    else if (intPart ++ frac) ≠ [] ∧ intPart.all Char.isDigit ∧ frac.all Char.isDigit then
      some ((digitsToNat intPart : ℚ) + (digitsToNat frac : ℚ) / (10 : ℚ) ^ frac.length)
    else none

/-- Model of `Decimal(string)`: Python removes surrounding whitespace and
underscores, then parses `[sign] digits [. digits]`.  Exponent notation and
Infinity/NaN are not modelled (no claim exercises them). -/
def parseDecimal (s : List Char) : Option ℚ :=
  let t := (trim s).filter (fun c => c != '_')
  match t with
  | '+' :: r => parseUnsignedDec r
  | '-' :: r => (parseUnsignedDec r).map Neg.neg
  | r => parseUnsignedDec r

/-- The character removal performed by `safe_decimal` on strings:
`value.strip().replace(",", "").replace("₪", "").replace("$", "")`
(the strip itself is applied before this, see `safe_decimal`). -/
def cleanChars (s : List Char) : List Char :=
  s.filter (fun c => c != ',' && c != '₪' && c != '$')

/-- `BusinessValidationAdapter.safe_decimal`: coerce any value to `Decimal`,
falling back to 0 on failure, never raising. -/
def safe_decimal : Value → ℚ
  | .null => 0
  | .str s =>
    if s = [] then 0
    else (parseDecimal (cleanChars (trim s))).getD 0
  | .num q => q

/-- The comma-to-dot substitution of `schemas._to_decimal`. -/
def commaToDot (c : Char) : Char := if c = ',' then '.' else c

/-- `schemas._to_decimal`: `none` models the raised `ValueError` on an
unparseable value (numbers round-trip through `Decimal(str(v))`). -/
def _to_decimal : Value → Option ℚ
  | .null => some 0
  | .num q => some q
  | .str s =>
    if s = [] then some 0
    else parseDecimal ((trim s).map commaToDot)

/-! ## Character-level comparison (`character_kpi_calculator.py`) -/

/-- Result of `CharacterKPICalculator.compare_characters`. -/
structure Comparison where
  total_chars : ℕ
  correct_chars : ℕ
  accuracy : ℚ
  char_scores : List ℕ
deriving DecidableEq

/-- `CharacterKPICalculator.compare_characters`: positional character-equality
score of two values after stringification and trimming. -/
def compare_characters (ground_truth predicted : List Char) : Comparison :=
  let gt_str := trim ground_truth
  let pred_str := trim predicted
  if gt_str = [] ∧ pred_str = [] then
    ⟨0, 0, 1, []⟩
  else if gt_str = [] ∨ pred_str = [] then
    let longer_str := if gt_str = [] then pred_str else gt_str
    ⟨longer_str.length, 0, 0, List.replicate longer_str.length 0⟩
  else
    let max_len := max gt_str.length pred_str.length
    let char_scores :=
      (List.range max_len).map (fun i => if gt_str[i]? = pred_str[i]? then (1 : ℕ) else 0)
    let correct_chars := char_scores.sum
    let accuracy := if max_len > 0 then (correct_chars : ℚ) / max_len else 1
    ⟨max_len, correct_chars, accuracy, char_scores⟩

/-- `CharacterKPICalculator.measured_fields`. -/
def measured_fields : List String :=
  ["barcode", "item_code", "description", "quantity", "unit_price",
   "discount_percent", "price_after_discount", "total_amount"]

/-- Per-line, per-file KPI record produced by `calculate_line_kpis`. -/
structure LineResult where
  field_results : List (String × Comparison)
  line_accuracy : ℚ
  total_chars : ℕ
  correct_chars : ℕ
  measured_fields : ℕ
deriving DecidableEq

/-- Accumulator of the field loop in `calculate_line_kpis`. -/
structure LineAcc where
  field_results : List (String × Comparison)
  total_line_chars : ℕ
  correct_line_chars : ℕ
  measured_fields_count : ℕ

/-- One step of the field loop of `calculate_line_kpis`: a field whose
ground-truth value is blank after trimming is skipped entirely. -/
def lineStep (gt pred : Item) (acc : LineAcc) (field : String) : LineAcc :=
  let gt_value := lookupFieldD gt field (.str [])
  if trim (strOfValue gt_value) = [] then acc
  else
    let pred_value := lookupFieldD pred field (.str [])
    let c := compare_characters (strOfValue gt_value) (strOfValue pred_value)
    ⟨acc.field_results ++ [(field, c)],
     acc.total_line_chars + c.total_chars,
     acc.correct_line_chars + c.correct_chars,
     acc.measured_fields_count + 1⟩

/-- The body of `calculate_line_kpis` for a single predicted file. -/
def lineKpisOne (gt pred : Item) : LineResult :=
  let a := measured_fields.foldl (lineStep gt pred) ⟨[], 0, 0, 0⟩
  { field_results := a.field_results
    line_accuracy :=
      if a.total_line_chars > 0 then
        (a.correct_line_chars : ℚ) / a.total_line_chars
      else 1
    total_chars := a.total_line_chars
    correct_chars := a.correct_line_chars
    measured_fields := a.measured_fields_count }

/-- `CharacterKPICalculator.calculate_line_kpis`: per-file loop over the
predicted files (each file's accumulation is independent). -/
def calculate_line_kpis (ground_truth_line : Item)
    (predicted_files_data : List (String × Item)) : List (String × LineResult) :=
  predicted_files_data.map (fun p => (p.1, lineKpisOne ground_truth_line p.2))

/-- Per-field aggregate inside `calculate_global_kpis`' output. -/
structure FieldAcc where
  accuracy : ℚ
  total_chars : ℕ
  correct_chars : ℕ
  measured_in_lines : ℕ
deriving DecidableEq

/-- Per-file aggregate produced by `calculate_global_kpis`. -/
structure FileKpi where
  overall_accuracy : ℚ
  total_characters : ℕ
  correct_characters : ℕ
  processed_lines : ℕ
  total_measured_fields : ℕ
  field_accuracies : List (String × FieldAcc)
deriving DecidableEq

/-- The running `field_stats` entry: total chars, correct chars, measured count. -/
def FieldStats := List (String × (ℕ × ℕ × ℕ))

/-- Accumulator of the per-line loop in `calculate_global_kpis`. -/
structure GlobalAcc where
  total_chars : ℕ
  correct_chars : ℕ
  field_stats : FieldStats
  processed_lines : ℕ
  total_measured_fields : ℕ

/-- `{field: {'total_chars': 0, 'correct_chars': 0, 'measured_count': 0} for
field in self.measured_fields}`. -/
def initFieldStats : FieldStats :=
  measured_fields.map (fun f => (f, (0, 0, 0)))

/-- Add one field comparison into the running `field_stats`. -/
def bumpFieldStats (fs : FieldStats) (field : String) (c : Comparison) : FieldStats :=
  fs.map (fun p =>
    if p.1 = field then (p.1, (p.2.1 + c.total_chars, p.2.2.1 + c.correct_chars, p.2.2.2 + 1))
    else p)

/-- Dictionary insert with Python semantics: overwrite an existing key in
place, otherwise append (insertion order preserved). -/
def dictInsert (m : List (Value × Item)) (k : Value) (v : Item) : List (Value × Item) :=
  if m.any (fun p => p.1 = k) then m.map (fun p => if p.1 = k then (k, v) else p)
  else m ++ [(k, v)]

/-- `{item.get('line', i+1): item for i, item in enumerate(data)}` — the
line-number index of a record set; duplicated line keys are last-wins. -/
def buildLineMap (items : List Item) : List (Value × Item) :=
  (items.foldl
    (fun acc it =>
      (dictInsert acc.1 (lookupFieldD it "line" (.num (acc.2 + 1))) it, acc.2 + 1))
    ([], 0)).1

/-- Lookup in a line-number index. -/
def mapLookup (m : List (Value × Item)) (k : Value) : Option Item :=
  (m.find? (fun p => p.1 = k)).map Prod.snd

/-- One line of the per-file loop of `calculate_global_kpis`: lines missing
from the ground truth or from this file are skipped (logged, not scored). -/
def globalStep (gtMap fMap : List (Value × Item)) (acc : GlobalAcc) (k : Value) : GlobalAcc :=
  match mapLookup gtMap k, mapLookup fMap k with
  | some gtLine, some predLine =>
    let lr := lineKpisOne gtLine predLine
    { total_chars := acc.total_chars + lr.total_chars
      correct_chars := acc.correct_chars + lr.correct_chars
      field_stats := lr.field_results.foldl (fun fs p => bumpFieldStats fs p.1 p.2) acc.field_stats
      processed_lines := acc.processed_lines + 1
      total_measured_fields := acc.total_measured_fields + lr.measured_fields }
  | _, _ => acc

/-- Package the loop accumulator into the per-file result dictionary.
`overall_accuracy = correct_chars / total_chars if total_chars > 0 else 0.0`;
per-field accuracies are reported only for fields measured at least once. -/
def mkFileKpi (acc : GlobalAcc) : FileKpi :=
  { overall_accuracy :=
      if acc.total_chars > 0 then (acc.correct_chars : ℚ) / acc.total_chars else 0
    total_characters := acc.total_chars
    correct_characters := acc.correct_chars
    processed_lines := acc.processed_lines
    total_measured_fields := acc.total_measured_fields
    field_accuracies :=
      acc.field_stats.filterMap (fun p =>
        if p.2.2.2 > 0 then
          some (p.1,
            { accuracy := if p.2.1 > 0 then (p.2.2.1 : ℚ) / p.2.1 else 0
              total_chars := p.2.1
              correct_chars := p.2.2.1
              measured_in_lines := p.2.2.2 })
        else none) }

/-- The per-file body of `calculate_global_kpis`.  The source iterates the
union of line numbers in sorted order; every accumulation is commutative and
associative, so the model iterates the deduplicated union in occurrence order
(sortedness is immaterial to the produced numbers). -/
def globalForFile (gtMap fMap : List (Value × Item)) (allKeys : List Value) : FileKpi :=
  mkFileKpi (allKeys.foldl (globalStep gtMap fMap) ⟨0, 0, initFieldStats, 0, 0⟩)

/-- `CharacterKPICalculator.calculate_global_kpis`. -/
def calculate_global_kpis (ground_truth_data : List Item)
    (predicted_files : List (String × List Item)) : List (String × FileKpi) :=
  let gtMap := buildLineMap ground_truth_data
  let fMaps := predicted_files.map (fun p => (p.1, buildLineMap p.2))
  let allKeys :=
    (gtMap.map Prod.fst ++ (fMaps.map (fun p => p.2.map Prod.fst)).flatten).dedup
  fMaps.map (fun p => (p.1, globalForFile gtMap p.2 allKeys))

/-! ## Business rule engine (`validation/schemas.py`, `rules.py`, `validator.py`) -/

/-- Issue severities.  The rules only ever produce ERROR and WARN. -/
inductive Severity where
  | ERROR
  | WARN
  | INFO
deriving DecidableEq

/-- A `ValidationIssue`.  The formatted `found`/`expected`/`message` strings of
the source are presentation-only (scoring depends solely on severity) and are
not modelled. -/
structure Issue where
  code : String
  severity : Severity
  path : String
deriving DecidableEq

/-- `schemas.LineItem` after validation, as built by the adapter.  `barcode`
and `item_code` are optional strings; `price_after_discount` is always
supplied by the adapter. -/
structure LineItem where
  line_no : ℕ
  barcode : Option (List Char)
  item_code : Option (List Char)
  description : List Char
  qty : ℚ
  unit_price : ℚ
  discount_pct : ℚ
  price_after_discount : ℚ
  vat_pct : ℚ
  line_total : ℚ
deriving DecidableEq

/-- `schemas.InvoiceFinal`. -/
structure InvoiceFinal where
  subtotal : ℚ
  vat_amount : ℚ
  total : ℚ
deriving DecidableEq

/-- `schemas.Invoice` (the optional intro metadata carries no validated data
and is not modelled). -/
structure Invoice where
  lines : List LineItem
  final : Option InvoiceFinal
deriving DecidableEq

/-- `rules.TOLERANCE = Decimal("0.05")`. -/
def TOLERANCE : ℚ := 5 / 100

/-- `rules.DEFAULT_VAT = Decimal("17")`. -/
def DEFAULT_VAT : ℚ := 17

/-- `rules._approx_equal`. -/
def approx_equal (a b : ℚ) : Prop := |a - b| ≤ TOLERANCE

instance (a b : ℚ) : Decidable (approx_equal a b) := by
  unfold approx_equal; infer_instance

/-- `rules.check_line_totals`. -/
def check_line_totals (inv : Invoice) : List Issue :=
  inv.lines.enum.filterMap (fun p =>
    let i := p.1
    let line := p.2
    let expected := line.qty * line.unit_price * (1 - line.discount_pct / 100)
    if approx_equal line.line_total expected then none
    else some ⟨"E-LINE-TOTAL-MISMATCH", .ERROR, "lines[" ++ toString i ++ "].line_total"⟩)

/-- `rules.check_subtotals`. -/
def check_subtotals (inv : Invoice) : List Issue :=
  match inv.final with
  | none => []
  | some f =>
    let sum_lines := (inv.lines.map LineItem.line_total).sum
    (if approx_equal f.subtotal sum_lines then []
     else [⟨"E-SUBTOTAL-MISMATCH", .ERROR, "final.subtotal"⟩]) ++
    (if approx_equal f.total (f.subtotal + f.vat_amount) then []
     else [⟨"E-TOTAL-MISMATCH", .ERROR, "final.total"⟩])

/-- `rules.check_vat_reasonableness`. -/
def check_vat_reasonableness (inv : Invoice) : List Issue :=
  inv.lines.enum.filterMap (fun p =>
    let i := p.1
    let line := p.2
    if line.vat_pct < 0 ∨ line.vat_pct > 100 then
      some ⟨"E-VAT-RATE", .ERROR, "lines[" ++ toString i ++ "].vat_pct"⟩
    else if line.vat_pct ≠ DEFAULT_VAT then
      some ⟨"W-VAT-UNUSUAL", .WARN, "lines[" ++ toString i ++ "].vat_pct"⟩
    else none)

/-- `rules.check_discounts`. -/
def check_discounts (inv : Invoice) : List Issue :=
  inv.lines.enum.filterMap (fun p =>
    let i := p.1
    let line := p.2
    if line.discount_pct < 0 ∨ line.discount_pct > 100 then
      some ⟨"E-DISCOUNT-RANGE", .ERROR, "lines[" ++ toString i ++ "].discount_pct"⟩
    else if line.discount_pct > 90 then
      some ⟨"W-DISCOUNT-HIGH", .WARN, "lines[" ++ toString i ++ "].discount_pct"⟩
    else none)

/-- `rules.run_all_rules`. -/
def run_all_rules (inv : Invoice) : List Issue :=
  check_line_totals inv ++ check_subtotals inv ++
  check_vat_reasonableness inv ++ check_discounts inv

/-- `validator.SEVERITY_WEIGHTS`. -/
def SEVERITY_WEIGHTS : Severity → ℤ
  | .ERROR => 10
  | .WARN => 3
  | .INFO => 0

/-- Verdicts of `BusinessValidator.validate`. -/
inductive Status where
  | PASS
  | REVIEW
  | FAIL
deriving DecidableEq

/-- The rendering of a status into the result dictionaries. -/
def statusStr : Status → String
  | .PASS => "PASS"
  | .REVIEW => "REVIEW"
  | .FAIL => "FAIL"

/-- Result dictionary of `BusinessValidator.validate`. -/
structure BResult where
  issues : List Issue
  score : ℤ
  status : Status
deriving DecidableEq

/-- `BusinessValidator._score`. -/
def score_of_issues (issues : List Issue) : ℤ :=
  max 0 (100 - (issues.map (fun i => SEVERITY_WEIGHTS i.severity)).sum)

/-- `BusinessValidator.validate` (the Python `not any(sev == ERROR)` guard is
the predicate that no issue has severity ERROR). -/
def validate (inv : Invoice) : BResult :=
  let issues := run_all_rules inv
  let score := score_of_issues issues
  let status : Status :=
    if score ≥ 90 ∧ ∀ i ∈ issues, i.severity ≠ Severity.ERROR then .PASS
    else if score ≥ 70 then .REVIEW
    else .FAIL
  ⟨issues, score, status⟩

/-! ## Invoice adapter (`business_validation_adapter.py`) -/

/-- Validation of an `Optional[str]` pydantic field in lax mode: absence and
`None` give `none`; a string passes; a numeric input raises a pydantic
`ValidationError` (pydantic v2 does not coerce numbers to `str`), which the
adapter catches, dropping the line — modelled as the outer `none`. -/
def optStrField (item : Item) (f : String) : Option (Option (List Char)) :=
  match lookupField item f with
  | none => some none
  | some .null => some none
  | some (.str s) => some (some s)
  | some (.num _) => none

/-- `BusinessValidationAdapter.convert_item_to_line_item`.  A missing or blank
description raises, which the function catches, returning `None`. -/
def convert_item_to_line_item (item : Item) (line_no : ℕ) : Option LineItem :=
  let description := trim (strOfValue (lookupFieldD item "description" (.str [])))
  if description = [] then none
  else
    match optStrField item "barcode", optStrField item "item_code" with
    | some bc, some ic =>
      let qty := safe_decimal (lookupFieldD item "quantity" (.num 1))
      let unit_price := safe_decimal (lookupFieldD item "unit_price" (.num 0))
      let discount_pct := safe_decimal (lookupFieldD item "discount_percent" (.num 0))
      let vat_pct := safe_decimal (lookupFieldD item "vat_percent" (.num 17))
      let line_total0 := safe_decimal (lookupFieldD item "total_amount" (.num 0))
      let line_total :=
        if line_total0 = 0 then qty * (unit_price * (1 - discount_pct / 100))
        else line_total0
      some
        { line_no := line_no
          barcode := bc
          item_code := ic
          description := collapseWS description
          qty := qty
          unit_price := unit_price
          discount_pct := discount_pct
          price_after_discount := safe_decimal (lookupFieldD item "price_after_discount" (.num 0))
          vat_pct := vat_pct
          line_total := line_total }
    | _, _ => none

/-- The line-conversion loop of `convert_json_to_invoice`: `line_no` follows
the original record index (`i + 1`), failed records are dropped and conversion
continues. -/
def convertLines : List Item → ℕ → List LineItem
  | [], _ => []
  | it :: rest, n =>
    match convert_item_to_line_item it n with
    | some li => li :: convertLines rest (n + 1)
    | none => convertLines rest (n + 1)

/-- `BusinessValidationAdapter.extract_invoice_final` on the `{'main_items':
items}` input built by `validate_business_logic`: that input never carries a
`summary`/`totals` block, so the Final is computed from the converted lines. -/
def extract_invoice_final (lines : List LineItem) : InvoiceFinal :=
  let subtotal := (lines.map LineItem.line_total).sum
  let vat_amount := (lines.map (fun l => l.line_total * l.vat_pct / 100)).sum
  ⟨subtotal, vat_amount, subtotal + vat_amount⟩

/-- `BusinessValidationAdapter.convert_json_to_invoice`, specialised to the
`{'main_items': items}` wrapper built by `validate_business_logic` (so
`extract_main_items` returns `items` and `extract_invoice_intro` finds
nothing).  Empty input or zero usable lines yield `None`. -/
def convert_json_to_invoice (items : List Item) : Option Invoice :=
  if items = [] then none
  else
    let lines := convertLines items 1
    if lines = [] then none
    else some ⟨lines, some (extract_invoice_final lines)⟩

/-- The per-file outcome stored in the `validate_business_logic` results. -/
inductive BizOutcome where
  | ok (score : ℤ) (status : Status) (issues : List Issue) (lines_validated : ℕ)
  | err (error : String)
deriving DecidableEq

/-- The success/score/status/issues part of one file's business result (the
`validator.validate` call never raises in the model, so only the conversion
failure path produces `err`). -/
def business_file_result (items : List Item) : BizOutcome :=
  match convert_json_to_invoice items with
  | some inv =>
    let vr := validate inv
    .ok vr.score vr.status vr.issues inv.lines.length
  | none => .err "Failed to convert to invoice format"

/-- One log record: `{'timestamp': datetime.now()..., 'level': ..., 'message':
...}`.  The timestamp is drawn from the explicit clock. -/
structure LogEntry where
  timestamp : List Char
  level : String
  message : String
deriving DecidableEq

/-- Read the clock once and build a log entry. -/
def mkLog (clock : ℕ → List Char) (n : ℕ) (level message : String) : LogEntry × ℕ :=
  (⟨clock n, level, message⟩, n + 1)

/-- Log entries produced while converting the individual records: one ERROR
entry per dropped record (the interpolated exception text is elided). -/
def dropLogs : List Item → ℕ → (ℕ → List Char) → ℕ → List LogEntry × ℕ
  | [], _, _, n => ([], n)
  | it :: rest, i, clock, n =>
    match convert_item_to_line_item it i with
    | some _ => dropLogs rest (i + 1) clock n
    | none =>
      let (e, n1) := mkLog clock n "ERROR" "Error converting item to LineItem"
      let (es, n2) := dropLogs rest (i + 1) clock n1
      (e :: es, n2)

/-- The log entries `convert_json_to_invoice` appends for one file. -/
def conv_log_entries (items : List Item) (clock : ℕ → List Char) (n : ℕ) :
    List LogEntry × ℕ :=
  if items = [] then
    let (e, n1) := mkLog clock n "ERROR" "No main_items found in JSON data"
    ([e], n1)
  else
    let (des, n1) := dropLogs items 1 clock n
    let lines := convertLines items 1
    if lines = [] then
      let (e, n2) := mkLog clock n1 "ERROR" "No valid lines found after conversion"
      (des ++ [e], n2)
    else
      let (e, n2) := mkLog clock n1 "INFO"
        ("Successfully converted invoice with " ++ toString lines.length ++ " lines")
      (des ++ [e], n2)

/-- One file's entry in the business results: outcome plus the per-file
`conversion_logs` snapshot (taken before the completion log, after which the
adapter clears its log list for the next file). -/
structure BizFileResult where
  outcome : BizOutcome
  conversion_logs : List LogEntry
deriving DecidableEq

/-- `BusinessValidationAdapter.validate_business_logic`: every file yields an
explicit result; the captured logs are the start entry plus the conversion
entries; the trailing completion/failure log consumes a clock read but is
cleared before the next file. -/
def validate_business_logic :
    List (String × List Item) → (ℕ → List Char) → ℕ → List (String × BizFileResult) × ℕ
  | [], _, n => ([], n)
  | (k, items) :: rest, clock, n =>
    let (startE, n1) := mkLog clock n "INFO" ("Starting business validation for file: " ++ k)
    let (convEs, n2) := conv_log_entries items clock n1
    let r : BizFileResult := ⟨business_file_result items, startE :: convEs⟩
    let (rs, n3) := validate_business_logic rest clock (n2 + 1)
    ((k, r) :: rs, n3)

/-! ## Orchestrator (`enhanced_validation_processor.py`) -/

/-- `ValidationMethod`. -/
inductive ValidationMethod where
  | character_level
  | business_logic
  | both
deriving DecidableEq

/-- The processor state entering `run_validation`: the extracted per-file
record sets, the optional ground truth, and the selected method. -/
structure ProcState where
  extracted_files_data : List (String × List Item)
  ground_truth_data : Option (List Item)
  validation_method : ValidationMethod
deriving DecidableEq

/-- `is_ground_truth_required`. -/
def is_ground_truth_required (m : ValidationMethod) : Bool :=
  m = ValidationMethod.character_level || m = ValidationMethod.both

/-- The Python truthiness test `not self.ground_truth_data`: no ground truth
was loaded, or the loaded reference holds zero records. -/
def gt_empty : Option (List Item) → Bool
  | none => true
  | some l => l.isEmpty

/-- `can_run_validation`. -/
def can_run_validation (s : ProcState) : Bool :=
  if s.extracted_files_data = [] then false
  else if s.validation_method = ValidationMethod.business_logic then true
  else s.ground_truth_data ≠ none

/-- The character-level block returned by `run_character_validation`.  The
derived presentation artifacts (`detailed_report`, `expanded_table_data`) are
pure functions of these fields and are not modelled; `character_logs` (the
calculator's accumulated log list, which embeds wall-clock timestamps) is also
omitted — the idempotence analysis uses the business-side logs, which are
modelled in full. -/
structure CharResults where
  kpi_results : List (String × FileKpi)
  ground_truth_lines : ℕ
deriving DecidableEq

/-- `run_character_validation`: raises (caller error) when no usable ground
truth is present. -/
def run_character_validation (s : ProcState) : Except String CharResults :=
  match s.ground_truth_data with
  | none => .error "No ground truth data available for character-level validation"
  | some gt =>
    if gt = [] then .error "No ground truth data available for character-level validation"
    else .ok ⟨calculate_global_kpis gt s.extracted_files_data, gt.length⟩

/-- The `statistics` block of `run_business_validation`, computed from the
per-file outcomes (success flags and scores). -/
structure Stats where
  total_files : ℕ
  successful_validations : ℕ
  failed_validations : ℕ
  average_score : ℚ
deriving DecidableEq

/-- Whether an outcome is a success result. -/
def BizOutcome.isOk : BizOutcome → Bool
  | .ok _ _ _ _ => true
  | .err _ => false

/-- The score of a successful outcome. -/
def BizOutcome.score? : BizOutcome → Option ℤ
  | .ok s _ _ _ => some s
  | .err _ => none

/-- `run_business_validation`'s statistics over the projected outcomes. -/
def stats_of (rs : List (String × BizOutcome)) : Stats :=
  let total := rs.length
  let succ := (rs.filter (fun p => p.2.isOk)).length
  let scores := rs.filterMap (fun p => p.2.score?)
  let avg : ℚ := if succ > 0 then ((scores.map Int.cast).sum : ℚ) / scores.length else 0
  ⟨total, succ, total - succ, avg⟩

/-- The business block returned by `run_business_validation`.  `business_logs`
is `adapter.get_logs()` taken after the per-file loop, which has already
cleared the adapter's list — always empty. -/
structure BizResults where
  business_results : List (String × BizFileResult)
  statistics : Stats
  business_logs : List LogEntry
deriving DecidableEq

/-- `run_business_validation`. -/
def run_business_validation (s : ProcState) (clock : ℕ → List Char) (n : ℕ) :
    BizResults × ℕ :=
  let (results, n1) := validate_business_logic s.extracted_files_data clock n
  (⟨results, stats_of (results.map (fun p => (p.1, p.2.outcome))), []⟩, n1)

/-- One file's row in `combine_validation_results`' `files_analysis`.  The
source stores `character_score` and `combined_score` as percent-formatted
strings of the same numbers; the model keeps the numbers. -/
structure FileAnalysis where
  character_accuracy : Option ℚ
  business_score : Option ℤ
  business_status : Option String
  business_issues : Option ℕ
  business_error : Option String
  combined_score : Option ℚ
deriving DecidableEq

/-- The business score entering a combination row: a failed business
validation still contributes score 0. -/
def bscoreOf : Option BizOutcome → Option ℤ
  | none => none
  | some (.ok s _ _ _) => some s
  | some (.err _) => some 0

/-- Per-file combination: a failed business validation still contributes
`business_score = 0` with status `FAILED`; the weighted score exists exactly
when both sides are present. -/
def combineFile (charAcc : Option ℚ) (biz : Option BizOutcome) : FileAnalysis :=
  { character_accuracy := charAcc
    business_score := bscoreOf biz
    business_status :=
      match biz with
      | none => none
      | some (.ok _ st _ _) => some (statusStr st)
      | some (.err _) => some "FAILED"
    business_issues :=
      match biz with
      | none => none
      | some (.ok _ _ iss _) => some iss.length
      | some (.err _) => none
    business_error :=
      match biz with
      | none => none
      | some (.ok _ _ _ _) => none
      | some (.err e) => some e
    combined_score :=
      match charAcc, bscoreOf biz with
      | some a, some b => some (a * (6 / 10) + (b : ℚ) / 100 * (4 / 10))
      | _, _ => none }

/-- `combined_analysis` block. -/
structure Combined where
  files_analysis : List (String × FileAnalysis)
  average_character_accuracy : ℚ
  average_business_score : ℚ
  files_analyzed : ℕ
deriving DecidableEq

/-- `combine_validation_results`, iterating the loaded file keys and looking
each up in the character KPIs and the business results. -/
def combine_validation_results (fileKeys : List String)
    (kpis : List (String × FileKpi)) (biz : List (String × BizOutcome))
    (businessAvg : ℚ) : Combined :=
  let fa := fileKeys.map (fun k =>
    (k, combineFile
      (((kpis.find? (fun p => p.1 = k)).map Prod.snd).map FileKpi.overall_accuracy)
      ((biz.find? (fun p => p.1 = k)).map Prod.snd)))
  let char_avg : ℚ :=
    (fa.map (fun p => (p.2.character_accuracy).getD 0)).sum / fa.length
  ⟨fa, char_avg, businessAvg / 100, fa.length⟩

/-- The assembled report of `run_validation`.  `timestamp` is the wrapping
metadata read from the clock at the start of the run. -/
inductive ReportBody where
  | character (c : CharResults)
  | business (b : BizResults)
  | both (c : CharResults) (b : BizResults) (comb : Combined)
deriving DecidableEq

structure Report where
  method_used : ValidationMethod
  timestamp : List Char
  files_processed : ℕ
  body : ReportBody
deriving DecidableEq

/-- `EnhancedValidationProcessor.run_validation`: rejects (raises `ValueError`)
when no candidate files are loaded; the character path additionally rejects
without usable ground truth. -/
def run_validation (s : ProcState) (clock : ℕ → List Char) (n : ℕ) :
    Except String (Report × ℕ) :=
  if s.extracted_files_data = [] then .error "No JSON files loaded"
  else
    let ts := clock n
    let n1 := n + 1
    match s.validation_method with
    | .character_level =>
      (run_character_validation s).map (fun c =>
        (⟨.character_level, ts, s.extracted_files_data.length, .character c⟩, n1))
    | .business_logic =>
      let (b, n2) := run_business_validation s clock n1
      .ok (⟨.business_logic, ts, s.extracted_files_data.length, .business b⟩, n2)
    | .both =>
      match run_character_validation s with
      | .error e => .error e
      | .ok c =>
        let (b, n2) := run_business_validation s clock n1
        let comb := combine_validation_results
          (s.extracted_files_data.map Prod.fst) c.kpi_results
          (b.business_results.map (fun p => (p.1, p.2.outcome)))
          b.statistics.average_score
        .ok (⟨.both, ts, s.extracted_files_data.length, .both c b comb⟩, n2)

/-! ### Timestamp-free projection of a report (for the idempotence analysis) -/

/-- The business block with logs stripped: per-file outcomes and statistics. -/
structure SBiz where
  outcomes : List (String × BizOutcome)
  statistics : Stats
deriving DecidableEq

def stripBiz (b : BizResults) : SBiz :=
  ⟨b.business_results.map (fun p => (p.1, p.2.outcome)), b.statistics⟩

inductive SBody where
  | character (c : CharResults)
  | business (b : SBiz)
  | both (c : CharResults) (b : SBiz) (comb : Combined)
deriving DecidableEq

/-- A report with every clock-derived datum removed: the wrapping `timestamp`
and the per-file `conversion_logs`. -/
structure SReport where
  method_used : ValidationMethod
  files_processed : ℕ
  body : SBody
deriving DecidableEq

def stripReport (r : Report) : SReport :=
  ⟨r.method_used, r.files_processed,
    match r.body with
    | .character c => .character c
    | .business b => .business (stripBiz b)
    | .both c b comb => .both c (stripBiz b) comb⟩

/-! ## Claims -/

/-- C1: for every invoice draft, `BusinessValidator.validate` returns
`score = max(0, 100 - Σ weight(severity))` with weights ERROR=10, WARN=3,
INFO=0, and the status chain gives PASS iff score ≥ 90 with no ERROR issue,
REVIEW iff score ≥ 70 but not PASS, else FAIL (equivalently: FAIL iff
score < 70). -/
theorem C1_scoring_and_status (inv : Invoice) :
    (validate inv).score =
      max 0 (100 - ((validate inv).issues.map (fun i =>
        match i.severity with
        | Severity.ERROR => (10 : ℤ)
        | Severity.WARN => 3
        | Severity.INFO => 0)).sum) ∧
    ((validate inv).status = Status.PASS ↔
      (validate inv).score ≥ 90 ∧ ∀ i ∈ (validate inv).issues, i.severity ≠ Severity.ERROR) ∧
    ((validate inv).status = Status.REVIEW ↔
      (validate inv).score ≥ 70 ∧
        ¬((validate inv).score ≥ 90 ∧
          ∀ i ∈ (validate inv).issues, i.severity ≠ Severity.ERROR)) ∧
    ((validate inv).status = Status.FAIL ↔ (validate inv).score < 70) := by
  have hsc : (validate inv).score = score_of_issues (run_all_rules inv) := rfl
  have his : (validate inv).issues = run_all_rules inv := rfl
  have hst : (validate inv).status =
      (if score_of_issues (run_all_rules inv) ≥ 90 ∧
          (∀ i ∈ run_all_rules inv, i.severity ≠ Severity.ERROR) then Status.PASS
       else if score_of_issues (run_all_rules inv) ≥ 70 then Status.REVIEW
       else Status.FAIL) := rfl
  refine ⟨rfl, ?_, ?_, ?_⟩ <;> simp only [hst, hsc, his] <;> split_ifs with h1 h2
  · exact iff_of_true rfl h1
  · exact iff_of_false (by decide) h1
  · exact iff_of_false (by decide) h1
  · exact iff_of_false (by decide) (fun hh => hh.2 h1)
  · exact iff_of_true rfl ⟨h2, h1⟩
  · exact iff_of_false (by decide) (fun hh => h2 hh.1)
  · exact iff_of_false (by decide) (fun hlt => absurd h1.1 (by omega))
  · exact iff_of_false (by decide) (fun hlt => absurd h2 (by omega))
  · exact iff_of_true rfl (by omega)

/-- C6 counterexample: `compare_characters` trims its inputs first, so for
`s = " a"` the self-comparison has `total = 1`, not `len(s) = 2` — the claim
`correct == total == len(s)` fails. -/
theorem C6_counterexample :
    (compare_characters [' ', 'a'] [' ', 'a']).accuracy = 1 ∧
    (compare_characters [' ', 'a'] [' ', 'a']).correct_chars = 1 ∧
    (compare_characters [' ', 'a'] [' ', 'a']).total_chars = 1 ∧
    (compare_characters [' ', 'a'] [' ', 'a']).total_chars ≠
      ([' ', 'a'] : List Char).length := by
  have h1 : trim [' ', 'a'] = ['a'] := by decide
  refine ⟨?_, by decide, by decide, by decide⟩
  norm_num [compare_characters, h1, List.range_succ]

/-- C6 amended: for every string `s`, `compare(s, s)` has accuracy 1.0 and
`correct == total == len(s.strip())`; `total` equals `len(s)` exactly when
`s` carries no surrounding whitespace. -/
theorem C6_amended (s : List Char) :
    (compare_characters s s).accuracy = 1 ∧
    (compare_characters s s).correct_chars = (compare_characters s s).total_chars ∧
    (compare_characters s s).total_chars = (trim s).length := by
  by_cases h : trim s = []
  · simp [compare_characters, h]
  · have hpos : 0 < (trim s).length := List.length_pos.mpr h
    simp only [compare_characters, h, false_and, if_false, false_or, or_self,
      Nat.max_self, eq_self_iff_true, if_true, List.map_const', List.length_range,
      List.sum_replicate, smul_eq_mul, mul_one, gt_iff_lt, hpos]
    exact ⟨div_self (Nat.cast_ne_zero.mpr hpos.ne'), trivial, trivial⟩

/-- C5 counterexample: `safe_decimal` removes every comma, so `"3,5"` (no dot
present) coerces to 35, not to 3.5 as comma-as-decimal-point would give; and
the schema-level coercion `_to_decimal` raises (`none`) on an unparseable
value instead of mapping it to 0. -/
theorem C5_counterexample :
    safe_decimal (Value.str ['3', ',', '5']) = 35 ∧
    (35 : ℚ) ≠ 7 / 2 ∧
    _to_decimal (Value.str ['x']) = none := by
  refine ⟨by decide, by norm_num, by decide⟩

/-- C5 amended: `safe_decimal` strips currency symbols and removes every comma
(a comma is treated as a thousands separator even when no dot is present, and
never as a decimal point), and maps any value that still cannot be parsed to 0
without raising; the schema-level `_to_decimal` instead replaces each comma
with a dot and raises a hard failure on an unparseable value. -/
theorem C5_amended :
    (∀ s : List Char, ',' ∉ cleanChars (trim s)) ∧
    (∀ s : List Char, parseDecimal (cleanChars (trim s)) = none →
      safe_decimal (.str s) = 0) ∧
    (∀ (s : List Char) (q : ℚ), parseDecimal (cleanChars (trim s)) = some q →
      safe_decimal (.str s) = q) ∧
    safe_decimal .null = 0 ∧
    (∀ q : ℚ, safe_decimal (.num q) = q) ∧
    (∀ s : List Char, parseDecimal ((trim s).map commaToDot) = none → s ≠ [] →
      _to_decimal (.str s) = none) := by
  refine ⟨?_, ?_, ?_, rfl, fun q => rfl, ?_⟩
  · intro s hmem
    simp [cleanChars, List.mem_filter] at hmem
  · intro s hp
    by_cases hs : s = []
    · simp [safe_decimal, hs]
    · simp [safe_decimal, hs, hp]
  · intro s q hp
    by_cases hs : s = []
    · rw [hs, show parseDecimal (cleanChars (trim ([] : List Char))) = none from by decide]
        at hp
      cases hp
    · simp [safe_decimal, hs, hp]
  · intro s hp hs
    simp [_to_decimal, hs, hp]

/-- C5 witness: a concrete unparseable string coerces to 0 through
`safe_decimal` and raises through `_to_decimal`. -/
theorem C5_witness :
    safe_decimal (Value.str ['a', 'b', 'c']) = 0 ∧
    _to_decimal (Value.str ['x']) = none := by
  constructor
  · exact C5_amended.2.1 ['a', 'b', 'c'] (by decide)
  · exact C5_amended.2.2.2.2.2 ['x'] (by decide) (by decide)

/-- C3 counterexample: a record without a `quantity` field converts with
`qty = 1` (the adapter's `item.get('quantity', 1)` default), not 0; and a
record with a non-numeric `vat_percent` converts with `vat_pct = 0`, not 17. -/
theorem C3_counterexample :
    (convert_item_to_line_item [("description", Value.str ['x'])] 1).map LineItem.qty =
      some 1 ∧
    (1 : ℚ) ≠ 0 ∧
    (convert_item_to_line_item
        [("description", Value.str ['x']), ("vat_percent", Value.str ['a', 'b'])] 1).map
      LineItem.vat_pct = some 0 ∧
    (0 : ℚ) ≠ 17 := by
  refine ⟨by decide, by norm_num, by decide, by norm_num⟩

/-- C3 amended: an absent `quantity` defaults to 1 (a present but non-numeric
one coerces to 0); `unit_price` and `discount_pct` default to 0 when absent or
non-numeric; `vat_pct` defaults to 17 when absent but coerces to 0 when
present and non-numeric; and whenever the coerced `total_amount` is zero
(absent, zero, or unparseable) the line total is computed as
`qty * unit_price * (1 - discount_pct/100)`. -/
theorem C3_amended (item : Item) (n : ℕ) (li : LineItem)
    (h : convert_item_to_line_item item n = some li) :
    (lookupField item "quantity" = none → li.qty = 1) ∧
    (∀ s, lookupField item "quantity" = some (.str s) →
      parseDecimal (cleanChars (trim s)) = none → li.qty = 0) ∧
    (lookupField item "unit_price" = none → li.unit_price = 0) ∧
    (∀ s, lookupField item "unit_price" = some (.str s) →
      parseDecimal (cleanChars (trim s)) = none → li.unit_price = 0) ∧
    (lookupField item "discount_percent" = none → li.discount_pct = 0) ∧
    (∀ s, lookupField item "discount_percent" = some (.str s) →
      parseDecimal (cleanChars (trim s)) = none → li.discount_pct = 0) ∧
    (lookupField item "vat_percent" = none → li.vat_pct = 17) ∧
    (∀ s, lookupField item "vat_percent" = some (.str s) →
      parseDecimal (cleanChars (trim s)) = none → li.vat_pct = 0) ∧
    (safe_decimal (lookupFieldD item "total_amount" (.num 0)) = 0 →
      li.line_total = li.qty * li.unit_price * (1 - li.discount_pct / 100)) := by
  have hsafe : ∀ (s : List Char), parseDecimal (cleanChars (trim s)) = none →
      safe_decimal (.str s) = 0 := by
    intro s hp
    by_cases hs : s = []
    · simp [safe_decimal, hs]
    · simp [safe_decimal, hs, hp]
  simp only [convert_item_to_line_item] at h
  split at h
  · cases h
  · split at h
    · rw [Option.some.injEq] at h
      subst h
      refine ⟨?_, ?_, ?_, ?_, ?_, ?_, ?_, ?_, ?_⟩
      · intro hq
        simp [lookupFieldD, hq, safe_decimal]
      · intro s hq hp
        simp [lookupFieldD, hq, hsafe s hp]
      · intro hq
        simp [lookupFieldD, hq, safe_decimal]
      · intro s hq hp
        simp [lookupFieldD, hq, hsafe s hp]
      · intro hq
        simp [lookupFieldD, hq, safe_decimal]
      · intro s hq hp
        simp [lookupFieldD, hq, hsafe s hp]
      · intro hq
        simp [lookupFieldD, hq, safe_decimal]
      · intro s hq hp
        simp [lookupFieldD, hq, hsafe s hp]
      · intro h0
        rw [if_pos h0]
        ring
    · cases h

/-- C3 witness: the amended statement instantiated at a record carrying only a
description — the converted line has `qty = 1`, `vat_pct = 17`. -/
theorem C3_witness :
    (⟨1, none, none, ['x'], 1, 0, 0, 0, 17, 5⟩ : LineItem).qty = 1 ∧
    (⟨1, none, none, ['x'], 1, 0, 0, 0, 17, 5⟩ : LineItem).vat_pct = 17 := by
  have h := C3_amended
    [("description", Value.str ['x']), ("total_amount", Value.num 5)] 1
    ⟨1, none, none, ['x'], 1, 0, 0, 0, 17, 5⟩ (by decide)
  exact ⟨h.1 (by decide), h.2.2.2.2.2.2.1 (by decide)⟩

/-- Packaging consistency of the per-file KPI record: the stored overall
accuracy is the ratio of the stored character counters, 0 at zero total. -/
theorem mkFileKpi_overall (acc : GlobalAcc) :
    (mkFileKpi acc).overall_accuracy =
      if (mkFileKpi acc).total_characters > 0 then
        ((mkFileKpi acc).correct_characters : ℚ) / (mkFileKpi acc).total_characters
      else 0 := rfl

/-- C2: for every candidate file, the file-level `overall_accuracy` equals
`correct_chars / total_chars` when `total_chars > 0` and is 0.0 when the total
is zero — even though a single field comparison of two trim-empty values
yields accuracy 1.0 with total 0. -/
theorem C2_overall_accuracy (gt : List Item) (files : List (String × List Item))
    (k : String) (kpi : FileKpi)
    (h : (k, kpi) ∈ calculate_global_kpis gt files) :
    (kpi.overall_accuracy =
      if kpi.total_characters > 0 then
        (kpi.correct_characters : ℚ) / kpi.total_characters
      else 0) ∧
    (∀ a b : List Char, trim a = [] → trim b = [] →
      compare_characters a b = ⟨0, 0, 1, []⟩) := by
  constructor
  · simp only [calculate_global_kpis, List.map_map, List.mem_map] at h
    obtain ⟨x, hx, hpair⟩ := h
    have hkpi := congrArg Prod.snd hpair
    simp only at hkpi
    rw [← hkpi]
    exact mkFileKpi_overall _
  · intro a b ha hb
    simp [compare_characters, ha, hb]

/-- C2 witness: the theorem instantiated at an empty reference and one file
with no records — zero measurable characters give overall accuracy 0, while
the empty-vs-empty field comparison gives accuracy 1. -/
theorem C2_witness :
    (⟨0, 0, 0, 0, 0, []⟩ : FileKpi).overall_accuracy = 0 ∧
    compare_characters [] [] = ⟨0, 0, 1, []⟩ := by
  have h := C2_overall_accuracy [] [("f", [])] "f" ⟨0, 0, 0, 0, 0, []⟩ (by decide)
  refine ⟨?_, h.2 [] [] rfl rfl⟩
  exact h.1.trans (by norm_num)

/-- Skipped fields leave the line accumulator untouched. -/
theorem foldl_lineStep_skip (gt pred : Item) (fs : List String) :
    ∀ acc : LineAcc,
      (∀ f ∈ fs, trim (strOfValue (lookupFieldD gt f (.str []))) = []) →
      fs.foldl (lineStep gt pred) acc = acc := by
  induction fs with
  | nil => intro acc _; rfl
  | cons f rest ih =>
    intro acc hall
    have hf := hall f (List.mem_cons_self _ _)
    rw [List.foldl_cons, show lineStep gt pred acc f = acc from by simp [lineStep, hf]]
    exact ih acc (fun g hg => hall g (List.mem_cons_of_mem _ hg))

/-- C10: for every aligned line in which no field is measurable (every
ground-truth field blank after trimming), `calculate_line_kpis` reports
`line_accuracy = 1.0` with a zero character total — the opposite convention
from the file-level aggregate of C2, where a zero total yields 0.0. -/
theorem C10_blank_line_accuracy (gt : Item) (preds : List (String × Item))
    (k : String) (lr : LineResult)
    (hmem : (k, lr) ∈ calculate_line_kpis gt preds)
    (hblank : ∀ f ∈ measured_fields,
      trim (strOfValue (lookupFieldD gt f (.str []))) = []) :
    lr.line_accuracy = 1 ∧ lr.total_chars = 0 ∧ lr.measured_fields = 0 := by
  simp only [calculate_line_kpis, List.mem_map] at hmem
  obtain ⟨x, hx, hpair⟩ := hmem
  have hlr := congrArg Prod.snd hpair
  simp only at hlr
  rw [← hlr]
  unfold lineKpisOne
  rw [foldl_lineStep_skip gt x.2 measured_fields _ hblank]
  simp

/-- C10 witness: a line whose ground truth is an empty record measures no
field and reports accuracy 1. -/
theorem C10_witness : (⟨[], 1, 0, 0, 0⟩ : LineResult).line_accuracy = 1 :=
  (C10_blank_line_accuracy [] [("f", [])] "f" ⟨[], 1, 0, 0, 0⟩
    (by decide) (by decide)).1

theorem combineFile_character (ca : Option ℚ) (bo : Option BizOutcome) :
    (combineFile ca bo).character_accuracy = ca := rfl

theorem combineFile_bscore (ca : Option ℚ) (bo : Option BizOutcome) :
    (combineFile ca bo).business_score = bscoreOf bo := rfl

theorem combineFile_combined (ca : Option ℚ) (bo : Option BizOutcome) :
    (combineFile ca bo).combined_score =
      match ca, bscoreOf bo with
      | some a, some b => some (a * (6 / 10) + (b : ℚ) / 100 * (4 / 10))
      | _, _ => none := rfl

/-- Case analysis of the per-file combination row. -/
theorem combineFile_spec (ca : Option ℚ) (bo : Option BizOutcome) :
    ((∃ c, (combineFile ca bo).combined_score = some c) ↔
      ((∃ a, (combineFile ca bo).character_accuracy = some a) ∧
        ∃ b, (combineFile ca bo).business_score = some b)) ∧
    (∀ (a : ℚ) (b : ℤ), (combineFile ca bo).character_accuracy = some a →
      (combineFile ca bo).business_score = some b →
      (combineFile ca bo).combined_score =
        some (6 / 10 * a + 4 / 10 * ((b : ℚ) / 100))) ∧
    ((combineFile ca bo).character_accuracy = none →
      (combineFile ca bo).combined_score = none) ∧
    ((combineFile ca bo).business_score = none →
      (combineFile ca bo).combined_score = none) := by
  rcases ca with _ | a <;> rcases hbs : bscoreOf bo with _ | b <;>
      simp only [combineFile_character, combineFile_bscore, combineFile_combined, hbs] <;>
      simp
  ring

/-- C4: in a BOTH-method run a combined score is reported for a file exactly
when both a character accuracy and a business score exist for it, and then it
equals `0.6*a + 0.4*(b/100)`; a file missing either side gets no combined
score. -/
theorem C4_combined_score (fileKeys : List String) (kpis : List (String × FileKpi))
    (biz : List (String × BizOutcome)) (avg : ℚ) (k : String) (fa : FileAnalysis)
    (h : (k, fa) ∈ (combine_validation_results fileKeys kpis biz avg).files_analysis) :
    ((∃ c, fa.combined_score = some c) ↔
      ((∃ a, fa.character_accuracy = some a) ∧ ∃ b, fa.business_score = some b)) ∧
    (∀ (a : ℚ) (b : ℤ), fa.character_accuracy = some a → fa.business_score = some b →
      fa.combined_score = some (6 / 10 * a + 4 / 10 * ((b : ℚ) / 100))) ∧
    (fa.character_accuracy = none → fa.combined_score = none) ∧
    (fa.business_score = none → fa.combined_score = none) := by
  simp only [combine_validation_results, List.mem_map] at h
  obtain ⟨key, hkey, hpair⟩ := h
  have hfa := congrArg Prod.snd hpair
  simp only at hfa
  rw [← hfa]
  exact combineFile_spec _ _

/-- C4 witness: a file with character accuracy 0 and a successful business
score 100 receives the weighted combined score. -/
theorem C4_witness :
    (combineFile (some 0) (some (BizOutcome.ok 100 Status.PASS [] 1))).combined_score =
      some (6 / 10 * 0 + 4 / 10 * ((100 : ℚ) / 100)) := by
  have h := C4_combined_score ["f"] [("f", ⟨0, 0, 0, 0, 0, []⟩)]
    [("f", BizOutcome.ok 100 Status.PASS [] 1)] 100 "f"
    (combineFile (some 0) (some (BizOutcome.ok 100 Status.PASS [] 1)))
    (List.mem_singleton.mpr rfl)
  exact h.2.1 0 100 rfl rfl

/-- The character-level precondition: `run_character_validation` raises
exactly when the ground truth is missing or holds zero records. -/
theorem char_error_iff (s : ProcState) :
    (∃ e, run_character_validation s = Except.error e) ↔
      gt_empty s.ground_truth_data = true := by
  cases hgt : s.ground_truth_data with
  | none => simp [run_character_validation, hgt, gt_empty]
  | some gt =>
    cases gt with
    | nil => simp [run_character_validation, hgt, gt_empty]
    | cons x rest => simp [run_character_validation, hgt, gt_empty]

/-- C7: starting a run is rejected as a caller error (a raised `ValueError`,
not a crash) whenever no candidate file is loaded, for every method; with
candidates loaded, the run is rejected iff the method includes character-level
validation and no usable ground-truth data is present — the business-only
method never requires reference data. -/
theorem C7_run_preconditions (s : ProcState) (clock : ℕ → List Char) (n : ℕ) :
    (s.extracted_files_data = [] →
      run_validation s clock n = .error "No JSON files loaded") ∧
    (s.extracted_files_data ≠ [] →
      ((∃ e, run_validation s clock n = .error e) ↔
        is_ground_truth_required s.validation_method = true ∧
        gt_empty s.ground_truth_data = true)) := by
  constructor
  · intro h
    simp [run_validation, h]
  · intro hne
    cases hm : s.validation_method
    case character_level =>
      rcases hrc : run_character_validation s with e | c
      · simp only [run_validation, if_neg hne, hm, hrc, Except.map]
        exact ⟨fun _ => ⟨rfl, (char_error_iff s).mp ⟨e, hrc⟩⟩, fun _ => ⟨e, rfl⟩⟩
      · simp only [run_validation, if_neg hne, hm, hrc, Except.map]
        constructor
        · rintro ⟨e, he⟩
          cases he
        · rintro ⟨-, hgt⟩
          obtain ⟨e, herr⟩ := (char_error_iff s).mpr hgt
          rw [hrc] at herr
          cases herr
    case business_logic =>
      simp only [run_validation, if_neg hne, hm]
      constructor
      · rintro ⟨e, he⟩
        cases he
      · rintro ⟨habs, -⟩
        cases habs
    case both =>
      rcases hrc : run_character_validation s with e | c
      · simp only [run_validation, if_neg hne, hm, hrc]
        exact ⟨fun _ => ⟨rfl, (char_error_iff s).mp ⟨e, hrc⟩⟩, fun _ => ⟨e, rfl⟩⟩
      · simp only [run_validation, if_neg hne, hm, hrc]
        constructor
        · rintro ⟨e, he⟩
          cases he
        · rintro ⟨-, hgt⟩
          obtain ⟨e, herr⟩ := (char_error_iff s).mpr hgt
          rw [hrc] at herr
          cases herr

/-- C7 witness: with no file loaded every method is rejected; with a file and
no ground truth, the character method is rejected while the business-only
method runs. -/
theorem C7_witness :
    run_validation ⟨[], none, .character_level⟩ (fun _ => []) 0 =
      .error "No JSON files loaded" ∧
    (∃ e, run_validation ⟨[("f", [])], none, .character_level⟩ (fun _ => []) 0 =
      .error e) ∧
    ¬(∃ e, run_validation ⟨[("f", [])], none, .business_logic⟩ (fun _ => []) 0 =
      .error e) := by
  refine ⟨(C7_run_preconditions ⟨[], none, .character_level⟩ (fun _ => []) 0).1 rfl,
    ?_, ?_⟩
  · exact ((C7_run_preconditions ⟨[("f", [])], none, .character_level⟩
      (fun _ => []) 0).2 (by simp)).mpr (by decide)
  · intro hex
    exact absurd (((C7_run_preconditions ⟨[("f", [])], none, .business_logic⟩
      (fun _ => []) 0).2 (by simp)).mp hex) (by decide)

/-- A converted line carries the record index it was built from. -/
theorem convert_item_line_no (item : Item) (n : ℕ) (li : LineItem)
    (h : convert_item_to_line_item item n = some li) : li.line_no = n := by
  simp only [convert_item_to_line_item] at h
  split at h
  · cases h
  · split at h
    · rw [Option.some.injEq] at h
      subst h
      rfl
    · cases h

/-- A record whose description is blank after trimming never converts. -/
theorem convert_item_blank (item : Item) (n : ℕ)
    (h : trim (strOfValue (lookupFieldD item "description" (.str []))) = []) :
    convert_item_to_line_item item n = none := by
  simp [convert_item_to_line_item, h]

theorem convertLines_nil (n : ℕ) : convertLines [] n = [] := rfl

theorem convertLines_cons (it : Item) (rest : List Item) (n : ℕ) :
    convertLines (it :: rest) n =
      match convert_item_to_line_item it n with
      | some li => li :: convertLines rest (n + 1)
      | none => convertLines rest (n + 1) := rfl

/-- The two-branch shape of `convert_json_to_invoice`. -/
theorem convert_json_eq (items : List Item) :
    convert_json_to_invoice items =
      if items = [] then none
      else if convertLines items 1 = [] then none
      else some ⟨convertLines items 1,
        some (extract_invoice_final (convertLines items 1))⟩ := rfl

/-- Every produced line comes from some record, at line number start + index. -/
theorem convertLines_mem (items : List Item) :
    ∀ (n : ℕ) (li : LineItem), li ∈ convertLines items n →
      ∃ i, ∃ h : i < items.length,
        convert_item_to_line_item (items.get ⟨i, h⟩) (n + i) = some li := by
  induction items with
  | nil =>
    intro n li h
    exact absurd h (List.not_mem_nil li)
  | cons it rest ih =>
    intro n li hmem
    rw [convertLines_cons] at hmem
    rcases hc : convert_item_to_line_item it n with _ | li2 <;> rw [hc] at hmem
    · obtain ⟨i, hi, hconv⟩ := ih (n + 1) li hmem
      have harith : n + 1 + i = n + (i + 1) := by omega
      rw [harith] at hconv
      exact ⟨i + 1, Nat.succ_lt_succ hi, hconv⟩
    · rcases List.mem_cons.mp hmem with heq | htail
      · subst heq
        exact ⟨0, Nat.succ_pos _, hc⟩
      · obtain ⟨i, hi, hconv⟩ := ih (n + 1) li htail
        have harith : n + 1 + i = n + (i + 1) := by omega
        rw [harith] at hconv
        exact ⟨i + 1, Nat.succ_lt_succ hi, hconv⟩

/-- Every record that converts contributes its line to the output, regardless
of failures elsewhere in the list. -/
theorem convertLines_complete (items : List Item) :
    ∀ (n i : ℕ) (hi : i < items.length) (li : LineItem),
      convert_item_to_line_item (items.get ⟨i, hi⟩) (n + i) = some li →
      li ∈ convertLines items n := by
  induction items with
  | nil =>
    intro n i hi
    exact absurd hi (Nat.not_lt_zero i)
  | cons it rest ih =>
    intro n i hi li hconv
    cases i with
    | zero =>
      have hconv0 : convert_item_to_line_item it n = some li := hconv
      rw [convertLines_cons, hconv0]
      exact List.mem_cons_self _ _
    | succ j =>
      have hj : j < rest.length := Nat.lt_of_succ_lt_succ hi
      have harith : n + (j + 1) = n + 1 + j := by omega
      rw [harith] at hconv
      have htail := ih (n + 1) j hj li hconv
      rcases hc : convert_item_to_line_item it n with _ | li2 <;>
          rw [convertLines_cons, hc]
      · exact htail
      · exact List.mem_cons_of_mem _ htail

/-- Projecting the per-file business outcomes out of the logged results gives
the pure per-file map: every file gets exactly one result, determined only by
its own records. -/
theorem biz_outcome_proj (files : List (String × List Item)) :
    ∀ (clock : ℕ → List Char) (n : ℕ),
      ((validate_business_logic files clock n).1).map (fun p => (p.1, p.2.outcome)) =
        files.map (fun f => (f.1, business_file_result f.2)) := by
  induction files with
  | nil =>
    intro clock n
    rfl
  | cons f rest ih =>
    intro clock n
    obtain ⟨k, items⟩ := f
    rcases hce : conv_log_entries items clock (n + 1) with ⟨es, n2⟩
    have htail := ih clock (n2 + 1)
    simp only [validate_business_logic, mkLog, hce, List.map_cons, htail]

/-- C8: records with a blank description are dropped while conversion of the
remaining records continues (the surviving lines keep their original
index-based line numbers); a file with zero usable lines gets an explicit
error result (`success = False` with an error description) while every other
file is still validated — the per-file results are in bijection with the
loaded files, never silently omitted. -/
theorem C8_conversion_errors (files : List (String × List Item))
    (clock : ℕ → List Char) (n : ℕ) (items : List Item) (i : ℕ)
    (hi : i < items.length) :
    ((validate_business_logic files clock n).1.map (fun p => (p.1, p.2.outcome)) =
      files.map (fun f => (f.1, business_file_result f.2))) ∧
    (convertLines items 1 = [] →
      business_file_result items = .err "Failed to convert to invoice format") ∧
    (trim (strOfValue (lookupFieldD (items.get ⟨i, hi⟩) "description" (.str []))) = [] →
      ∀ inv, convert_json_to_invoice items = some inv →
        ∀ li ∈ inv.lines, li.line_no ≠ i + 1) ∧
    (∀ li, convert_item_to_line_item (items.get ⟨i, hi⟩) (i + 1) = some li →
      ∃ inv, convert_json_to_invoice items = some inv ∧ li ∈ inv.lines) := by
  refine ⟨biz_outcome_proj files clock n, ?_, ?_, ?_⟩
  · intro hempty
    unfold business_file_result
    rw [convert_json_eq]
    by_cases hit : items = []
    · rw [if_pos hit]
    · rw [if_neg hit, if_pos hempty]
  · intro hblank inv hinv li hmem hno
    have hlines : inv.lines = convertLines items 1 := by
      rw [convert_json_eq] at hinv
      by_cases hit : items = []
      · rw [if_pos hit] at hinv
        cases hinv
      · rw [if_neg hit] at hinv
        by_cases hz : convertLines items 1 = []
        · rw [if_pos hz] at hinv
          cases hinv
        · rw [if_neg hz, Option.some.injEq] at hinv
          rw [← hinv]
    rw [hlines] at hmem
    obtain ⟨j, hj, hconv⟩ := convertLines_mem items 1 li hmem
    have hln : li.line_no = 1 + j := convert_item_line_no _ _ _ hconv
    have hji : j = i := by omega
    subst hji
    rw [convert_item_blank _ _ hblank] at hconv
    cases hconv
  · intro li hconv
    have hmem : li ∈ convertLines items 1 := by
      refine convertLines_complete items 1 i hi li ?_
      rw [Nat.add_comm 1 i]
      exact hconv
    have hne : convertLines items 1 ≠ [] := by
      intro hzero
      rw [hzero] at hmem
      cases hmem
    have hit : items ≠ [] := by
      intro hff
      rw [hff] at hi
      exact absurd hi (Nat.not_lt_zero i)
    refine ⟨⟨convertLines items 1, some (extract_invoice_final (convertLines items 1))⟩,
      ?_, hmem⟩
    rw [convert_json_eq, if_neg hit, if_neg hne]

/-- A usable record for the C8 witness (nonzero `total_amount` keeps every
arithmetic branch away from the computed line total). -/
def w_item : Item := [("description", Value.str ['x']), ("total_amount", Value.num 5)]

/-- The line `w_item` converts to at record index 1 (line number 2). -/
def w_li : LineItem := ⟨2, none, none, ['x'], 1, 0, 0, 0, 17, 5⟩

/-- C8 witness: a file whose only record is an empty dict is aborted with an
explicit error result; in a two-record file whose first record lacks a
description, that record yields no line (no line numbered 1), while the
second record's line survives. -/
theorem C8_witness :
    business_file_result [([] : Item)] = .err "Failed to convert to invoice format" ∧
    (validate_business_logic [("bad", [([] : Item)])] (fun _ => []) 0).1.map
        (fun p => (p.1, p.2.outcome)) =
      [("bad", business_file_result [([] : Item)])] ∧
    w_li.line_no ≠ 0 + 1 := by
  have h1 := C8_conversion_errors [("bad", [([] : Item)])] (fun _ => []) 0
    [([] : Item)] 0 (by norm_num)
  have h2 := C8_conversion_errors [("bad", [([] : Item)])] (fun _ => []) 0
    [([] : Item), w_item] 0 (by norm_num)
  refine ⟨h1.2.1 (by decide), h1.1, ?_⟩
  have hcl : convertLines [([] : Item), w_item] 1 = [w_li] := by decide
  have hinv : convert_json_to_invoice [([] : Item), w_item] =
      some ⟨[w_li], some (extract_invoice_final [w_li])⟩ := by
    rw [convert_json_eq, if_neg (by decide), hcl, if_neg (by decide)]
  exact h2.2.2.1 (by decide) ⟨[w_li], some (extract_invoice_final [w_li])⟩ hinv
    w_li (List.mem_singleton.mpr rfl)

/-- The clock-independent content of a business run: outcomes are the pure
per-file map, statistics are computed from them, and the trailing
`business_logs` snapshot is empty (the adapter clears per file). -/
theorem run_business_validation_clockfree (s : ProcState) (c : ℕ → List Char) (n : ℕ) :
    ((run_business_validation s c n).1.business_results.map
        (fun p => (p.1, p.2.outcome)) =
      s.extracted_files_data.map (fun f => (f.1, business_file_result f.2))) ∧
    (run_business_validation s c n).1.statistics =
      stats_of (s.extracted_files_data.map (fun f => (f.1, business_file_result f.2))) ∧
    (run_business_validation s c n).1.business_logs = [] := by
  unfold run_business_validation
  rcases hv : validate_business_logic s.extracted_files_data c n with ⟨rs, m⟩
  have hp := biz_outcome_proj s.extracted_files_data c n
  rw [hv] at hp
  simp only [hv]
  refine ⟨hp, ?_, ?_⟩
  · rw [hp]
  · trivial

/-- C9 amended: running the validation twice on unchanged inputs produces
identical scoring content — method, per-file KPI numbers, business outcomes
(scores, statuses, issues), statistics and the combined analysis — for any two
clock states; the full reports, however, are not bit-identical, because each
file's business result embeds `conversion_logs` whose entries carry wall-clock
timestamps (see the counterexample). -/
theorem C9_reports_deterministic_modulo_logs (s : ProcState)
    (c1 c2 : ℕ → List Char) (n1 n2 : ℕ) :
    (run_validation s c1 n1).map (fun p => stripReport p.1) =
    (run_validation s c2 n2).map (fun p => stripReport p.1) := by
  by_cases hne : s.extracted_files_data = []
  · simp [run_validation, hne]
  · cases hm : s.validation_method
    · simp only [run_validation, if_neg hne, hm]
      rcases hrc : run_character_validation s with e | c
      · rfl
      · rfl
    · simp only [run_validation, if_neg hne, hm]
      rcases hb1 : run_business_validation s c1 (n1 + 1) with ⟨b1, m1⟩
      rcases hb2 : run_business_validation s c2 (n2 + 1) with ⟨b2, m2⟩
      have k1 := run_business_validation_clockfree s c1 (n1 + 1)
      have k2 := run_business_validation_clockfree s c2 (n2 + 1)
      rw [hb1] at k1
      rw [hb2] at k2
      simp only [Except.map, stripReport, stripBiz]
      rw [k1.1, k1.2.1, k2.1, k2.2.1]
    · simp only [run_validation, if_neg hne, hm]
      rcases hrc : run_character_validation s with e | c
      · rfl
      · rcases hb1 : run_business_validation s c1 (n1 + 1) with ⟨b1, m1⟩
        rcases hb2 : run_business_validation s c2 (n2 + 1) with ⟨b2, m2⟩
        have k1 := run_business_validation_clockfree s c1 (n1 + 1)
        have k2 := run_business_validation_clockfree s c2 (n2 + 1)
        rw [hb1] at k1
        rw [hb2] at k2
        simp only [Except.map, stripReport, stripBiz]
        rw [k1.1, k1.2.1, k2.1, k2.2.1]

/-- The wall-clock timestamps embedded inside the per-file business results of
a report (empty for non-business bodies and for rejected runs). -/
def report_log_stamps (r : Except String (Report × ℕ)) : List (List Char) :=
  match r with
  | .ok (rep, _) =>
    match rep.body with
    | .business b =>
      (b.business_results.map (fun p => p.2.conversion_logs.map LogEntry.timestamp)).flatten
    | _ => []
  | .error _ => []

/-- C9 counterexample: the same loaded state run at two different wall-clock
readings yields reports that differ — the per-file `conversion_logs` inside
the business results carry the clock value, so the reports are not
bit-identical even though all scoring content agrees. -/
theorem C9_counterexample :
    run_validation ⟨[("f", [w_item])], none, .business_logic⟩ (fun _ => ['a']) 0 ≠
    run_validation ⟨[("f", [w_item])], none, .business_logic⟩ (fun _ => ['b']) 0 := by
  intro h
  have hs := congrArg report_log_stamps h
  rw [show report_log_stamps (run_validation ⟨[("f", [w_item])], none, .business_logic⟩
      (fun _ => ['a']) 0) = [['a'], ['a']] from by decide] at hs
  rw [show report_log_stamps (run_validation ⟨[("f", [w_item])], none, .business_logic⟩
      (fun _ => ['b']) 0) = [['b'], ['b']] from by decide] at hs
  exact absurd hs (by decide)

end Scan
